import Mathlib

/-!
Verification of the gnss-sdr acquisition adapters and hybrid PVT block.

Shallow embedding of:
* `src/algorithms/acquisition/adapters/gps_l1_ca_pcps_tong_acquisition.cc`
* `src/algorithms/acquisition/adapters/galileo_e1_pcps_quicksync_ambiguous_acquisition.cc`
* `src/algorithms/PVT/gnuradio_blocks/hybrid_pvt_cc.cc`

Machine doubles that only carry exact small rationals are modelled by `ℚ`;
unsigned/int counters by `ℕ` (all configuration values exercised are
non-negative, matching the C++ unsigned arithmetic).
-/

namespace GnssSdr

/-- Model of `ConfigurationInterface::property(key, default)`: the stored
value for the key if present, otherwise the supplied default.  (The
configuration class itself is not under `src/`; this is its documented
lookup-with-default behaviour.) -/
def prop {α : Type} (v : Option α) (d : α) : α := v.getD d

/-- Modelled from the spec: GPS L1 C/A code has 1023 chips per 1 ms code
period (spec section 4.A), hence a chip rate of 1.023e6 chips/s.  The
constant lives in `GPS_L1_CA.h`, which is not under `src/`. -/
def GPS_L1_CA_CODE_RATE_HZ : ℚ := 1023000

/-- Modelled from the spec: GPS L1 C/A code length in chips (spec 4.A). -/
def GPS_L1_CA_CODE_LENGTH_CHIPS : ℚ := 1023

/-- Modelled from the spec: Galileo E1 chip rate, 4092 chips per 4 ms code
period (spec section 4.A).  The constant lives in `Galileo_E1.h`, which is
not under `src/`. -/
def Galileo_E1_CODE_CHIP_RATE_HZ : ℚ := 1023000

/-- Modelled from the spec: Galileo E1B code length in chips (spec 4.A). -/
def Galileo_E1_B_CODE_LENGTH_CHIPS : ℚ := 4092

/-- C++ `std::round` (round half away from zero) restricted to the
non-negative arguments produced by the adapters; for `q ≥ 0` it equals
`⌊q + 1/2⌋`. -/
def cppRound (q : ℚ) : ℤ := ⌊q + 1/2⌋

/-- Iteration count of the Doppler loop
`for (int doppler = -doppler_max; doppler <= doppler_max; doppler += doppler_step)`
appearing in both `calculate_threshold` implementations.  `fuel` bounds the
number of iterations so the recursion is structural; `frequencyBins` below
supplies enough fuel for every terminating run (`doppler_step > 0`). -/
def dopplerLoopIters : ℕ → ℤ → ℤ → ℕ → ℕ
  | 0, _, _, _ => 0
  | fuel + 1, doppler, dmax, dstep =>
      if doppler ≤ dmax then dopplerLoopIters fuel (doppler + dstep) dmax dstep + 1
      else 0

/-- `frequency_bins` as counted by the Doppler loop in `calculate_threshold`
(for `doppler_step > 0` the loop performs at most `2*doppler_max + 1`
iterations, so the fuel is never exhausted: see `frequencyBins_eq`). -/
def frequencyBins (doppler_max doppler_step : ℕ) : ℕ :=
  dopplerLoopIters (2 * doppler_max + 1) (-(doppler_max : ℤ)) doppler_max doppler_step

/-- The pair of parameters the adapters hand to
`boost::math::quantile(boost::math::exponential_distribution(lambda), (1-pfa)^(1/ncells))`:
the returned threshold is fully determined by `(lambda, ncells, pfa)`.  Both
adapters build `lambda` and `ncells` by unsigned integer arithmetic. -/
structure ThresholdCall where
  lambda : ℕ
  ncells : ℕ
  pfa : ℚ
deriving DecidableEq

/-- Outcome of `set_threshold`: either the explicit argument is forwarded to
the acquisition block, or the threshold computed by `calculate_threshold`
from a configured `pfa` overrides it. -/
inductive ThresholdChoice where
  | explicitValue (t : ℚ)
  | fromPfa (call : ThresholdCall)
deriving DecidableEq

/-! ### GpsL1CaPcpsTongAcquisition
(`src/algorithms/acquisition/adapters/gps_l1_ca_pcps_tong_acquisition.cc`) -/

/-- Configuration keys read by the GPS Tong adapter (each `Option` field is
the stored value for the corresponding `<role>.` key; `none` means absent,
so `property` returns the default).  `pfa_channel` is the per-channel key
`role<channel>.pfa`, `pfa` the key `role.pfa`. -/
structure TongConfig where
  internal_fs_hz : Option ℕ
  coherent_integration_time_ms : Option ℕ
  tong_init_val : Option ℕ
  tong_max_val : Option ℕ
  pfa_channel : Option ℚ
  pfa : Option ℚ

/-- Member state of `GpsL1CaPcpsTongAcquisition` relevant to the claims
(`item_type` is taken to be the default `gr_complex`). -/
structure TongAdapter where
  fs_in : ℕ
  sampled_ms : ℕ
  code_length : ℕ
  vector_length : ℕ
  tong_init_val : ℕ
  tong_max_val : ℕ

/-- Constructor `GpsL1CaPcpsTongAcquisition::GpsL1CaPcpsTongAcquisition`:
reads the configuration and derives
`code_length_ = round(fs_in_ / (GPS_L1_CA_CODE_RATE_HZ / GPS_L1_CA_CODE_LENGTH_CHIPS))`
and `vector_length_ = code_length_ * sampled_ms_`. -/
def tongConstruct (cfg : TongConfig) : TongAdapter :=
  let fs_in := prop cfg.internal_fs_hz 2048000
  let sampled_ms := prop cfg.coherent_integration_time_ms 1
  let tong_init_val := prop cfg.tong_init_val 1
  let tong_max_val := prop cfg.tong_max_val 2
  let code_length :=
    (cppRound ((fs_in : ℚ) / (GPS_L1_CA_CODE_RATE_HZ / GPS_L1_CA_CODE_LENGTH_CHIPS))).toNat
  let vector_length := code_length * sampled_ms
  ⟨fs_in, sampled_ms, code_length, vector_length, tong_init_val, tong_max_val⟩

/-- `GpsL1CaPcpsTongAcquisition::calculate_threshold`:
`ncells = vector_length_ * frequency_bins`, `lambda = double(vector_length_)`,
threshold = `quantile(exponential(lambda), (1-pfa)^(1/ncells))`.
`doppler_max_` and `doppler_step_` are the values installed by
`set_doppler_max` / `set_doppler_step`. -/
def tongCalculateThreshold (a : TongAdapter) (doppler_max doppler_step : ℕ)
    (pfa : ℚ) : ThresholdCall :=
  let bins := frequencyBins doppler_max doppler_step
  ⟨a.vector_length, a.vector_length * bins, pfa⟩

/-- `GpsL1CaPcpsTongAcquisition::set_threshold`: read `role<channel>.pfa`
(default 0.0), fall back to `role.pfa` (default 0.0) when it is 0.0; if the
result is 0.0 keep the explicit threshold, otherwise override it with
`calculate_threshold(pfa)`. -/
def tongSetThreshold (cfg : TongConfig) (a : TongAdapter)
    (doppler_max doppler_step : ℕ) (threshold : ℚ) : ThresholdChoice :=
  let pfa := prop cfg.pfa_channel 0
  let pfa := if pfa = 0 then prop cfg.pfa 0 else pfa
  if pfa = 0 then .explicitValue threshold
  else .fromPfa (tongCalculateThreshold a doppler_max doppler_step pfa)

/-! ### GalileoE1PcpsQuickSyncAmbiguousAcquisition
(`src/algorithms/acquisition/adapters/galileo_e1_pcps_quicksync_ambiguous_acquisition.cc`) -/

/-- Configuration keys read by the QuickSync adapter. -/
structure QuickSyncConfig where
  internal_fs_hz : Option ℕ
  coherent_integration_time_ms : Option ℕ
  folding_factor : Option ℕ
  bit_transition_flag : Option Bool
  max_dwells : Option ℕ
  pfa_channel : Option ℚ
  pfa : Option ℚ

/-- Member state of `GalileoE1PcpsQuickSyncAmbiguousAcquisition` relevant to
the claims. `warned_rounding` records whether the constructor logged the
`LOG(WARNING)` about a `coherent_integration_time_ms` that is not a
multiple of `folding_factor_*4` (the constructor never aborts). -/
structure QuickSyncAdapter where
  fs_in : ℕ
  code_length : ℕ
  samples_per_ms : ℕ
  folding_factor : ℕ
  sampled_ms : ℕ
  warned_rounding : Bool
  vector_length : ℕ
  bit_transition_flag : Bool
  max_dwells : ℕ

/-- Lines 83–101 of the QuickSync constructor: when `sampled_ms_` is not a
multiple of `folding_factor_*4`, replace it by `folding_factor_*4` if it is
below that value, and by `(sampled_ms_/(folding_factor_*4))*(folding_factor_*4)`
(truncating unsigned division) otherwise, logging a warning; returns the
adjusted value and whether the warning was emitted. -/
def adjustSampledMs (sampled_ms folding_factor : ℕ) : ℕ × Bool :=
  if sampled_ms % (folding_factor * 4) ≠ 0 then
    (if sampled_ms < folding_factor * 4 then folding_factor * 4
     else (sampled_ms / (folding_factor * 4)) * (folding_factor * 4), true)
  else (sampled_ms, false)

/-- Constructor `GalileoE1PcpsQuickSyncAmbiguousAcquisition::…`: derives
`code_length_`, `samples_per_ms = round(code_length_/4.0)`, adjusts
`sampled_ms_` via `adjustSampledMs`, sets
`vector_length_ = sampled_ms_ * samples_per_ms`, and caps `max_dwells_` at 2
whenever `bit_transition_flag` is set. -/
def quickSyncConstruct (cfg : QuickSyncConfig) : QuickSyncAdapter :=
  let fs_in := prop cfg.internal_fs_hz 4000000
  let sampled_ms0 := prop cfg.coherent_integration_time_ms 8
  let code_length :=
    (cppRound ((fs_in : ℚ) /
      (Galileo_E1_CODE_CHIP_RATE_HZ / Galileo_E1_B_CODE_LENGTH_CHIPS))).toNat
  let samples_per_ms := (cppRound ((code_length : ℚ) / 4)).toNat
  let folding_factor := prop cfg.folding_factor 2
  let adjusted := adjustSampledMs sampled_ms0 folding_factor
  let sampled_ms := adjusted.1
  let vector_length := sampled_ms * samples_per_ms
  let bit_transition_flag := prop cfg.bit_transition_flag false
  let max_dwells := if bit_transition_flag then 2 else prop cfg.max_dwells 1
  ⟨fs_in, code_length, samples_per_ms, folding_factor, sampled_ms, adjusted.2,
    vector_length, bit_transition_flag, max_dwells⟩

/-- `GalileoE1PcpsQuickSyncAmbiguousAcquisition::calculate_threshold`:
`ncells = code_length_/folding_factor_ * frequency_bins` and
`lambda = double(code_length_/folding_factor_)` (unsigned integer
division). -/
def quickSyncCalculateThreshold (a : QuickSyncAdapter)
    (doppler_max doppler_step : ℕ) (pfa : ℚ) : ThresholdCall :=
  let bins := frequencyBins doppler_max doppler_step
  ⟨a.code_length / a.folding_factor, a.code_length / a.folding_factor * bins, pfa⟩

/-- `GalileoE1PcpsQuickSyncAmbiguousAcquisition::set_threshold` (same
pfa-override logic as the Tong adapter). -/
def quickSyncSetThreshold (cfg : QuickSyncConfig) (a : QuickSyncAdapter)
    (doppler_max doppler_step : ℕ) (threshold : ℚ) : ThresholdChoice :=
  let pfa := prop cfg.pfa_channel 0
  let pfa := if pfa = 0 then prop cfg.pfa 0 else pfa
  if pfa = 0 then .explicitValue threshold
  else .fromPfa (quickSyncCalculateThreshold a doppler_max doppler_step pfa)

/-- `GalileoE1PcpsQuickSyncAmbiguousAcquisition::set_local_code` copies
`sampled_ms_/(folding_factor_*4)` blocks of `code_length_` complex samples
into the buffer `code_`, which the constructor allocated with
`code_length_` elements (`new gr_complex[code_length_]`); block `i` covers
indices `[i*code_length_, (i+1)*code_length_)`. -/
def quickSyncLocalCodeBlocks (a : QuickSyncAdapter) : ℕ :=
  a.sampled_ms / (a.folding_factor * 4)

/-- Number of `gr_complex` slots written by `set_local_code`. -/
def quickSyncLocalCodeWriteCount (a : QuickSyncAdapter) : ℕ :=
  quickSyncLocalCodeBlocks a * a.code_length

/-! ### hybrid_pvt_cc
(`src/algorithms/PVT/gnuradio_blocks/hybrid_pvt_cc.cc`)

`general_work` is modelled as a step function on the block's member state,
fed once per epoch with the per-channel `Gnss_Synchro` snapshots and with
the contents of the global ephemeris maps read during that call.  The
least-squares solver `d_ls_pvt->get_PVT` lives outside `src/`; its boolean
outcome is an input of the epoch, and the receiver time passed to it is an
output.  Console display (lines 257–272) and the KML/NMEA printers change
no member state and produce no RINEX/dump output, so they are omitted. -/

/-- Fields of a per-channel `Gnss_Synchro` snapshot used by `general_work`. -/
structure Chan where
  prn : ℕ
  pseudorange_m : ℚ
  tow_at_current_symbol : ℚ
  tow_hybrid_at_current_symbol : ℚ
  flag_valid_pseudorange : Bool
deriving DecidableEq

/-- Construction-time parameters of `hybrid_pvt_cc`. -/
structure PvtParams where
  nchannels : ℕ
  dump : Bool
  output_rate_ms : ℕ

/-- Member state of `hybrid_pvt_cc` relevant to the claims.  The two
ephemeris maps are `d_ls_pvt->galileo_ephemeris_map` and
`d_ls_pvt->gps_ephemeris_map`, represented by their key lists (`begin()`
is dereferenceable exactly when the list is non-empty). -/
structure PvtState where
  sample_counter : ℕ
  last_sample_nav_output : ℕ
  rx_time : ℚ
  tow_at_curr_symbol : ℚ
  rinex_header_writen : Bool
  galileo_ephemeris_map : List ℕ
  gps_ephemeris_map : List ℕ
deriving DecidableEq

/-- Constructor state: counters zero, times zero, header not written, both
local ephemeris maps empty. -/
def pvtInit : PvtState := ⟨0, 0, 0, 0, false, [], []⟩

/-- Per-epoch inputs of one `general_work` call: the channel snapshots
`in[i][0]`, the key lists of the global ephemeris maps at the time of the
call, whether `global_galileo_almanac_map.read(0,…)` succeeded (the map was
non-empty and the read returned true), and the boolean result of
`d_ls_pvt->get_PVT`. -/
structure EpochIn where
  chans : List Chan
  global_galileo_eph : List ℕ
  global_gps_eph : List ℕ
  almanac_ok : Bool
  pvt_result : Bool
deriving DecidableEq

/-- Observable effects of one `general_work` call. `obs_galileo_deref` /
`obs_gps_deref` record whether the iterator dereferenced by the
`log_rinex_obs` call points into a non-empty map. `pvt_rx` is the receiver
time handed to `get_PVT` when it is invoked. `dump_words` is the sequence
of doubles appended to the raw dump file. -/
structure EpochOut where
  header_emitted : Bool
  nav_logged : Bool
  obs_logged : Bool
  obs_galileo_deref : Bool
  obs_gps_deref : Bool
  pvt_rx : Option ℚ
  dump_words : List ℚ
deriving DecidableEq

/-- Lines 159–162 / 184–187: the local Galileo map is overwritten by a copy
of the global map only when the global map is non-empty. -/
def updatedGalileoEph (s : PvtState) (e : EpochIn) : List ℕ :=
  if e.global_galileo_eph.isEmpty then s.galileo_ephemeris_map else e.global_galileo_eph

/-- Same for the GPS ephemeris map. -/
def updatedGpsEph (s : PvtState) (e : EpochIn) : List ℕ :=
  if e.global_gps_eph.isEmpty then s.gps_ephemeris_map else e.global_gps_eph

/-- Line 148: `in[i][0].Flag_valid_pseudorange == true` for some channel,
i.e. `gnss_pseudoranges_map` ends up non-empty. -/
def anyValidPseudorange (e : EpochIn) : Bool :=
  e.chans.any (fun c => c.flag_valid_pseudorange)

/-- Guard of the RINEX block: some valid pseudorange (line 205), an output
epoch (line 209) and a successful PVT solution (line 214). -/
def validFix (p : PvtParams) (s : PvtState) (e : EpochIn) : Bool :=
  anyValidPseudorange e && ((s.sample_counter + 1) % p.output_rate_ms == 0)
    && e.pvt_result

/-- Gate of the header block (lines 226–228): a valid fix with both local
ephemeris maps non-empty and the Galileo almanac available this epoch. -/
def rinexHeaderGate (p : PvtParams) (s : PvtState) (e : EpochIn) : Bool :=
  validFix p s e && !(updatedGalileoEph s e).isEmpty
    && !(updatedGpsEph s e).isEmpty && e.almanac_ok

/-- One call of `hybrid_pvt_cc::general_work`. -/
def generalWork (p : PvtParams) (s : PvtState) (e : EpochIn) :
    PvtState × EpochOut :=
  -- line 139: d_sample_counter++
  let counter := s.sample_counter + 1
  -- lines 146–155: last valid channel wins for both time stamps
  let tow' := e.chans.foldl
    (fun r c => if c.flag_valid_pseudorange then c.tow_at_current_symbol else r)
    s.tow_at_curr_symbol
  let rx' := e.chans.foldl
    (fun r c => if c.flag_valid_pseudorange then c.tow_hybrid_at_current_symbol else r)
    s.rx_time
  -- lines 159–199: refresh local copies of the global maps
  let galMap := updatedGalileoEph s e
  let gpsMap := updatedGpsEph s e
  -- lines 205–255: the RINEX block
  let fix := validFix p s e
  let headerEmit := rinexHeaderGate p s e && !s.rinex_header_writen
  let headerWriten := s.rinex_header_writen || headerEmit
  let navLog := fix && headerWriten
    && decide (6000 ≤ counter - s.last_sample_nav_output)
  let lastNav := if navLog then counter else s.last_sample_nav_output
  let obsLog := fix && headerWriten && (!galMap.isEmpty || !gpsMap.isEmpty)
  let pvtRx := if anyValidPseudorange e
      && ((s.sample_counter + 1) % p.output_rate_ms == 0)
    then some rx' else none
  -- lines 274–293: raw dump, one (Pseudorange_m, 0.0, d_rx_time) triplet
  -- per channel, executed whenever some pseudorange is valid and dumping
  -- is enabled
  let dumpWords := if anyValidPseudorange e && p.dump
    then e.chans.flatMap (fun c => [c.pseudorange_m, 0, rx'])
    else []
  (⟨counter, lastNav, rx', tow', headerWriten, galMap, gpsMap⟩,
   ⟨headerEmit, navLog, obsLog, !galMap.isEmpty, !gpsMap.isEmpty, pvtRx, dumpWords⟩)

/-- State reached after processing a list of epochs from the constructor
state. -/
def runPvt (p : PvtParams) (es : List EpochIn) : PvtState :=
  es.foldl (fun s e => (generalWork p s e).1) pvtInit

/-- Whether the RINEX header pair is written while processing epoch `n` of
the trace `es` (epochs are numbered from 0). -/
def headerEmittedAt (p : PvtParams) (es : List EpochIn) (n : ℕ) : Bool :=
  match es[n]? with
  | none => false
  | some e => (generalWork p (runPvt p (es.take n)) e).2.header_emitted

/-- Whether the header gate (valid fix, both ephemerides, almanac) holds at
epoch `n` of the trace. -/
def headerGateAt (p : PvtParams) (es : List EpochIn) (n : ℕ) : Bool :=
  match es[n]? with
  | none => false
  | some e => rinexHeaderGate p (runPvt p (es.take n)) e

/-- Whether a RINEX navigation record is appended while processing epoch
`n` of the trace. -/
def navLoggedAt (p : PvtParams) (es : List EpochIn) (n : ℕ) : Bool :=
  match es[n]? with
  | none => false
  | some e => (generalWork p (runPvt p (es.take n)) e).2.nav_logged

/-! ### Spec-side definitions used by refinement claims -/

/-- Modelled from the spec's wording of the threshold formula for
QuickSync: `λ = L/p` and `N_cells = (L/p)·frequency_bins` with `L` the
input vector length (`vector_length_`) and `p` the folding factor.  To be
compared against `quickSyncCalculateThreshold`, which the source builds
from `code_length_/folding_factor_`. -/
def claimQuickSyncThreshold (a : QuickSyncAdapter) (doppler_max doppler_step : ℕ)
    (pfa : ℚ) : ThresholdCall :=
  let bins := frequencyBins doppler_max doppler_step
  ⟨a.vector_length / a.folding_factor, a.vector_length / a.folding_factor * bins, pfa⟩

/-- Modelled from the spec's wording "enforce by rounding upward": the
least multiple of `m` that is `≥ s`. -/
def roundUpToMultiple (s m : ℕ) : ℕ := (s + m - 1) / m * m

/-- Effective pfa as the claim words it for the Tong adapter: the
per-channel key takes precedence, and a read yielding `0.0` counts as
absent. -/
def tongEffectivePfa (cfg : TongConfig) : ℚ :=
  if prop cfg.pfa_channel 0 ≠ 0 then prop cfg.pfa_channel 0 else prop cfg.pfa 0

/-- Effective pfa as the claim words it for the QuickSync adapter. -/
def quickSyncEffectivePfa (cfg : QuickSyncConfig) : ℚ :=
  if prop cfg.pfa_channel 0 ≠ 0 then prop cfg.pfa_channel 0 else prop cfg.pfa 0

/-- A configuration leaving every key at its default. -/
def quickSyncDefaultConfig : QuickSyncConfig := ⟨none, none, none, none, none, none, none⟩

/-- Once the header has been written, both local ephemeris maps are
non-empty: the invariant that keeps the `log_rinex_obs` call safe. -/
def HeaderInv (s : PvtState) : Prop :=
  s.rinex_header_writen = true →
    s.galileo_ephemeris_map ≠ [] ∧ s.gps_ephemeris_map ≠ []

/-- The last navigation-output stamp never exceeds the sample counter. -/
def NavInv (s : PvtState) : Prop :=
  s.last_sample_nav_output ≤ s.sample_counter

/-- Parameters used by the concrete PVT witnesses: one channel, dumping
off, PVT output every sample. -/
def pvtP0 : PvtParams := ⟨1, false, 1⟩

/-- Same as `pvtP0` but with dumping enabled. -/
def pvtP1 : PvtParams := ⟨1, true, 1⟩

/-- An epoch with one valid channel, non-empty global maps, the almanac
available and a successful PVT solution. -/
def pvtEpochGood : EpochIn := ⟨[⟨1, 3, 5, 7, true⟩], [11], [22], true, true⟩

/-- An epoch carrying nothing at all. -/
def pvtIdle : EpochIn := ⟨[], [], [], false, false⟩

/-- A trace of 12000 epochs whose only activity happens at epochs 5999 and
11999: long enough for two navigation appends. -/
def pvtTraceA : List EpochIn := List.replicate 5999 pvtIdle

def pvtTrace : List EpochIn := (pvtTraceA ++ [pvtEpochGood]) ++ (pvtTraceA ++ [pvtEpochGood])

lemma dopplerLoopIters_eq (dstep : ℕ) (hstep : 0 < dstep) :
    ∀ (fuel : ℕ) (c dmax : ℤ), (dmax + 1 - c).toNat ≤ fuel →
      dopplerLoopIters fuel c dmax dstep =
        if c ≤ dmax then (dmax - c).toNat / dstep + 1 else 0 := by
  intro fuel
  induction fuel with
  | zero =>
      intro c dmax h
      have : ¬ c ≤ dmax := by omega
      simp [dopplerLoopIters, this]
  | succ fuel ih =>
      intro c dmax h
      by_cases hc : c ≤ dmax
      · have hfuel : (dmax + 1 - (c + dstep)).toNat ≤ fuel := by omega
        rw [dopplerLoopIters, if_pos hc, ih (c + dstep) dmax hfuel]
        by_cases hc2 : c + dstep ≤ dmax
        · rw [if_pos hc2, if_pos hc]
          have ha : (dmax - (c + dstep)).toNat = (dmax - c).toNat - dstep := by omega
          have hle : dstep ≤ (dmax - c).toNat := by omega
          rw [ha, Nat.div_eq ((dmax - c).toNat) dstep, if_pos ⟨hstep, hle⟩]
        · rw [if_neg hc2, if_pos hc]
          have hlt : (dmax - c).toNat < dstep := by omega
          rw [Nat.div_eq_of_lt hlt]
      · rw [dopplerLoopIters, if_neg hc, if_neg hc]

/-- Closed form for the Doppler-loop count: for a positive step the loop
visits `⌊2·doppler_max/doppler_step⌋ + 1` frequency bins. -/
lemma frequencyBins_eq (dmax dstep : ℕ) (hstep : 0 < dstep) :
    frequencyBins dmax dstep = 2 * dmax / dstep + 1 := by
  have h : ((dmax : ℤ) + 1 - (-(dmax : ℤ))).toNat ≤ 2 * dmax + 1 := by omega
  rw [frequencyBins, dopplerLoopIters_eq dstep hstep _ _ _ h,
    if_pos (by omega : -(dmax : ℤ) ≤ (dmax : ℤ))]
  have : ((dmax : ℤ) - (-(dmax : ℤ))).toNat = 2 * dmax := by omega
  rw [this]

/-! ### Step equations and invariants of the PVT state machine -/

lemma generalWork_headerWriten (p : PvtParams) (s : PvtState) (e : EpochIn) :
    (generalWork p s e).1.rinex_header_writen
      = (s.rinex_header_writen || rinexHeaderGate p s e) := by
  have h : (generalWork p s e).1.rinex_header_writen
      = (s.rinex_header_writen || (rinexHeaderGate p s e && !s.rinex_header_writen)) := rfl
  rw [h]; cases s.rinex_header_writen <;> simp

lemma generalWork_counter (p : PvtParams) (s : PvtState) (e : EpochIn) :
    (generalWork p s e).1.sample_counter = s.sample_counter + 1 := rfl

lemma generalWork_galMap (p : PvtParams) (s : PvtState) (e : EpochIn) :
    (generalWork p s e).1.galileo_ephemeris_map = updatedGalileoEph s e := rfl

lemma generalWork_gpsMap (p : PvtParams) (s : PvtState) (e : EpochIn) :
    (generalWork p s e).1.gps_ephemeris_map = updatedGpsEph s e := rfl

lemma generalWork_headerEmitted (p : PvtParams) (s : PvtState) (e : EpochIn) :
    (generalWork p s e).2.header_emitted
      = (rinexHeaderGate p s e && !s.rinex_header_writen) := rfl

lemma generalWork_navLogged (p : PvtParams) (s : PvtState) (e : EpochIn) :
    (generalWork p s e).2.nav_logged
      = (validFix p s e
          && (s.rinex_header_writen || rinexHeaderGate p s e && !s.rinex_header_writen)
          && decide (6000 ≤ s.sample_counter + 1 - s.last_sample_nav_output)) := rfl

lemma generalWork_lastNav (p : PvtParams) (s : PvtState) (e : EpochIn) :
    (generalWork p s e).1.last_sample_nav_output
      = (if (generalWork p s e).2.nav_logged then s.sample_counter + 1
         else s.last_sample_nav_output) := rfl

lemma generalWork_obsLogged (p : PvtParams) (s : PvtState) (e : EpochIn) :
    (generalWork p s e).2.obs_logged
      = (validFix p s e
          && (s.rinex_header_writen || rinexHeaderGate p s e && !s.rinex_header_writen)
          && (!(updatedGalileoEph s e).isEmpty || !(updatedGpsEph s e).isEmpty)) := rfl

lemma generalWork_obsGalileoDeref (p : PvtParams) (s : PvtState) (e : EpochIn) :
    (generalWork p s e).2.obs_galileo_deref = !(updatedGalileoEph s e).isEmpty := rfl

lemma generalWork_obsGpsDeref (p : PvtParams) (s : PvtState) (e : EpochIn) :
    (generalWork p s e).2.obs_gps_deref = !(updatedGpsEph s e).isEmpty := rfl

lemma updatedGalileoEph_ne (s : PvtState) (e : EpochIn)
    (h : s.galileo_ephemeris_map ≠ []) : updatedGalileoEph s e ≠ [] := by
  unfold updatedGalileoEph
  split
  · exact h
  · next hglob => simpa [List.isEmpty_iff] using hglob

lemma updatedGpsEph_ne (s : PvtState) (e : EpochIn)
    (h : s.gps_ephemeris_map ≠ []) : updatedGpsEph s e ≠ [] := by
  unfold updatedGpsEph
  split
  · exact h
  · next hglob => simpa [List.isEmpty_iff] using hglob

lemma rinexHeaderGate_maps (p : PvtParams) (s : PvtState) (e : EpochIn)
    (h : rinexHeaderGate p s e = true) :
    updatedGalileoEph s e ≠ [] ∧ updatedGpsEph s e ≠ [] := by
  have h' := h
  unfold rinexHeaderGate at h'
  simp only [Bool.and_eq_true, Bool.not_eq_true'] at h'
  exact ⟨by simpa [List.isEmpty_iff] using h'.1.1.2,
    by simpa [List.isEmpty_iff] using h'.1.2⟩

lemma headerInv_step (p : PvtParams) (s : PvtState) (e : EpochIn)
    (hs : HeaderInv s) : HeaderInv (generalWork p s e).1 := by
  intro hw
  rw [generalWork_headerWriten, Bool.or_eq_true] at hw
  rw [generalWork_galMap, generalWork_gpsMap]
  rcases hw with hw | hg
  · obtain ⟨h1, h2⟩ := hs hw
    exact ⟨updatedGalileoEph_ne s e h1, updatedGpsEph_ne s e h2⟩
  · exact rinexHeaderGate_maps p s e hg

lemma headerInv_foldl (p : PvtParams) (es : List EpochIn) :
    ∀ s : PvtState, HeaderInv s →
      HeaderInv (es.foldl (fun s e => (generalWork p s e).1) s) := by
  induction es with
  | nil => intro s hs; simpa using hs
  | cons e es ih =>
      intro s hs
      simpa using ih _ (headerInv_step p s e hs)

lemma headerInv_runPvt (p : PvtParams) (es : List EpochIn) :
    HeaderInv (runPvt p es) := by
  apply headerInv_foldl
  intro h
  simp [pvtInit] at h

lemma sampleCounter_foldl (p : PvtParams) (es : List EpochIn) :
    ∀ s : PvtState,
      (es.foldl (fun s e => (generalWork p s e).1) s).sample_counter
        = s.sample_counter + es.length := by
  induction es with
  | nil => intro s; simp
  | cons e es ih =>
      intro s
      simp only [List.foldl_cons, ih, generalWork_counter, List.length_cons]
      omega

lemma sampleCounter_runPvt (p : PvtParams) (es : List EpochIn) :
    (runPvt p es).sample_counter = es.length := by
  simpa [pvtInit] using sampleCounter_foldl p es pvtInit

lemma navInv_step (p : PvtParams) (s : PvtState) (e : EpochIn)
    (hs : NavInv s) : NavInv (generalWork p s e).1 := by
  unfold NavInv at hs ⊢
  rw [generalWork_lastNav, generalWork_counter]
  split <;> omega

lemma lastNav_step_mono (p : PvtParams) (s : PvtState) (e : EpochIn)
    (hs : NavInv s) :
    s.last_sample_nav_output ≤ (generalWork p s e).1.last_sample_nav_output := by
  unfold NavInv at hs
  rw [generalWork_lastNav]
  split <;> omega

lemma lastNav_foldl_mono (p : PvtParams) (es : List EpochIn) :
    ∀ s : PvtState, NavInv s →
      s.last_sample_nav_output
        ≤ (es.foldl (fun s e => (generalWork p s e).1) s).last_sample_nav_output := by
  induction es with
  | nil => intro s _; simp
  | cons e es ih =>
      intro s hs
      calc s.last_sample_nav_output
          ≤ (generalWork p s e).1.last_sample_nav_output := lastNav_step_mono p s e hs
        _ ≤ _ := by simpa using ih _ (navInv_step p s e hs)

lemma navInv_foldl (p : PvtParams) (es : List EpochIn) :
    ∀ s : PvtState, NavInv s →
      NavInv (es.foldl (fun s e => (generalWork p s e).1) s) := by
  induction es with
  | nil => intro s hs; simpa using hs
  | cons e es ih =>
      intro s hs
      simpa using ih _ (navInv_step p s e hs)

lemma navInv_runPvt (p : PvtParams) (es : List EpochIn) : NavInv (runPvt p es) := by
  apply navInv_foldl
  simp [NavInv, pvtInit]

lemma runPvt_append (p : PvtParams) (l1 l2 : List EpochIn) :
    runPvt p (l1 ++ l2)
      = l2.foldl (fun s e => (generalWork p s e).1) (runPvt p l1) := by
  simp [runPvt, List.foldl_append]

/-- The header flag is set after the first `n` epochs exactly when the
header gate held at some earlier epoch. -/
lemma headerWriten_take_iff (p : PvtParams) (es : List EpochIn) :
    ∀ n, ((runPvt p (es.take n)).rinex_header_writen = true
      ↔ ∃ m, m < n ∧ headerGateAt p es m = true) := by
  intro n
  induction n with
  | zero => simp [runPvt, pvtInit]
  | succ n ih =>
      rw [List.take_succ, runPvt_append]
      cases hn : es[n]? with
      | none =>
          simp only [Option.toList, List.foldl_nil]
          rw [ih]
          constructor
          · rintro ⟨m, hm, hg⟩; exact ⟨m, by omega, hg⟩
          · rintro ⟨m, hm, hg⟩
            refine ⟨m, ?_, hg⟩
            rcases Nat.lt_succ_iff_lt_or_eq.mp hm with h | h
            · exact h
            · subst h; simp [headerGateAt, hn] at hg
      | some e =>
          simp only [Option.toList, List.foldl_cons, List.foldl_nil]
          rw [generalWork_headerWriten, Bool.or_eq_true, ih]
          have hg : headerGateAt p es n = rinexHeaderGate p (runPvt p (es.take n)) e := by
            simp [headerGateAt, hn]
          constructor
          · rintro (⟨m, hm, hgate⟩ | hgate)
            · exact ⟨m, by omega, hgate⟩
            · exact ⟨n, by omega, by rw [hg]; exact hgate⟩
          · rintro ⟨m, hm, hgate⟩
            rcases Nat.lt_succ_iff_lt_or_eq.mp hm with h | h
            · exact Or.inl ⟨m, h, hgate⟩
            · subst h; exact Or.inr (by rw [hg] at hgate; exact hgate)

lemma getElem?_some_lt {es : List EpochIn} {n : ℕ} {e : EpochIn}
    (h : es[n]? = some e) : n < es.length := by
  by_contra h'
  push_neg at h'
  rw [List.getElem?_eq_none h'] at h
  cases h

/-- A navigation append at epoch `m` stamps `d_last_sample_nav_output` with
the counter value `m + 1`. -/
lemma navLoggedAt_lastNav (p : PvtParams) (es : List EpochIn) (m : ℕ)
    (h : navLoggedAt p es m = true) :
    (runPvt p (es.take (m + 1))).last_sample_nav_output = m + 1 := by
  unfold navLoggedAt at h
  cases hm : es[m]? with
  | none => rw [hm] at h; cases h
  | some e =>
      rw [hm] at h
      have h' : (generalWork p (runPvt p (es.take m)) e).2.nav_logged = true := h
      have hlen : m < es.length := getElem?_some_lt hm
      rw [List.take_succ, runPvt_append, hm]
      simp only [Option.toList, List.foldl_cons, List.foldl_nil]
      rw [generalWork_lastNav, h']
      simp only [if_true]
      rw [sampleCounter_runPvt, List.length_take]
      omega

/-- A navigation append at epoch `n` means the 6000-tick guard held against
the stamp stored before the epoch. -/
lemma navLoggedAt_guard (p : PvtParams) (es : List EpochIn) (n : ℕ)
    (h : navLoggedAt p es n = true) :
    n < es.length ∧
      6000 ≤ n + 1 - (runPvt p (es.take n)).last_sample_nav_output := by
  unfold navLoggedAt at h
  cases hn : es[n]? with
  | none => rw [hn] at h; cases h
  | some e =>
      rw [hn] at h
      have h' : (generalWork p (runPvt p (es.take n)) e).2.nav_logged = true := h
      have hlen : n < es.length := getElem?_some_lt hn
      refine ⟨hlen, ?_⟩
      rw [generalWork_navLogged] at h'
      simp only [Bool.and_eq_true, decide_eq_true_eq] at h'
      have hc : (runPvt p (es.take n)).sample_counter = n := by
        rw [sampleCounter_runPvt, List.length_take]; omega
      rw [hc] at h'
      exact h'.2

/-! ### Acquisition claims -/

/-- C7: whenever `bit_transition_flag` is set the QuickSync adapter caps
`max_dwells_` at 2, regardless of any configured `<Role>.max_dwells`;
otherwise `max_dwells_` is the configured value, defaulting to 1. -/
theorem quicksync_max_dwells_policy (cfg : QuickSyncConfig) :
    (prop cfg.bit_transition_flag false = true →
      (quickSyncConstruct cfg).max_dwells = 2) ∧
    (prop cfg.bit_transition_flag false = false →
      (quickSyncConstruct cfg).max_dwells = prop cfg.max_dwells 1) := by
  constructor <;> intro h <;> simp [quickSyncConstruct, h]

/-- Witness for C7: with `bit_transition_flag = true` and a configured
`max_dwells = 7`, the constructed dwell cap is 2. -/
theorem quicksync_max_dwells_policy_witness :
    prop (some true) false = true ∧
      (quickSyncConstruct ⟨none, none, none, some true, some 7, none, none⟩).max_dwells = 2 :=
  ⟨rfl, (quicksync_max_dwells_policy ⟨none, none, none, some true, some 7, none, none⟩).1 rfl⟩

/-- C8: `set_threshold(t)` forwards `calculate_threshold(pfa)` whenever one
of the pfa keys reads non-zero (per-channel key first), and forwards
exactly `t` when both reads yield `0.0` — for both adapters. -/
theorem set_threshold_pfa_override (tcfg : TongConfig) (qcfg : QuickSyncConfig)
    (ta : TongAdapter) (qa : QuickSyncAdapter)
    (doppler_max doppler_step : ℕ) (t : ℚ) :
    tongSetThreshold tcfg ta doppler_max doppler_step t
      = (if tongEffectivePfa tcfg = 0 then .explicitValue t
         else .fromPfa (tongCalculateThreshold ta doppler_max doppler_step
            (tongEffectivePfa tcfg))) ∧
    quickSyncSetThreshold qcfg qa doppler_max doppler_step t
      = (if quickSyncEffectivePfa qcfg = 0 then .explicitValue t
         else .fromPfa (quickSyncCalculateThreshold qa doppler_max doppler_step
            (quickSyncEffectivePfa qcfg))) := by
  constructor
  · unfold tongSetThreshold tongEffectivePfa
    by_cases h1 : prop tcfg.pfa_channel 0 = 0 <;>
      by_cases h2 : prop tcfg.pfa 0 = 0 <;> simp [h1, h2]
  · unfold quickSyncSetThreshold quickSyncEffectivePfa
    by_cases h1 : prop qcfg.pfa_channel 0 = 0 <;>
      by_cases h2 : prop qcfg.pfa 0 = 0 <;> simp [h1, h2]

/-- C3 counterexample: for `coherent_integration_time_ms = 10` and
`folding_factor = 2` the constructor yields `sampled_ms_ = 8`, whereas
rounding 10 upward to a multiple of `4·2` gives 16: the replacement is not
the upward rounding the claim states. -/
theorem quicksync_rounding_not_upward :
    (quickSyncConstruct ⟨none, some 10, some 2, none, none, none, none⟩).sampled_ms = 8 ∧
    roundUpToMultiple 10 (4 * 2) = 16 ∧
    (quickSyncConstruct ⟨none, some 10, some 2, none, none, none, none⟩).sampled_ms
      ≠ roundUpToMultiple 10 (4 * 2) := by
  exact ⟨rfl, rfl, by decide⟩

/-- C3 (amended): when `coherent_integration_time_ms` is not a multiple of
`4·folding_factor`, the constructor logs the warning and replaces the value
by `4·folding_factor` if it was below that, and otherwise by the value
rounded **downward** to a multiple of `4·folding_factor` (the greatest such
multiple that is `≤` the configured value); it never aborts (the adjustment
is a total function) and the result is always a multiple of
`4·folding_factor`. -/
theorem quicksync_rounding (s ff : ℕ) (hff : 0 < ff) :
    ((adjustSampledMs s ff).2 = true ↔ s % (ff * 4) ≠ 0) ∧
    (adjustSampledMs s ff).1 % (ff * 4) = 0 ∧
    (s % (ff * 4) ≠ 0 → s < ff * 4 → (adjustSampledMs s ff).1 = ff * 4) ∧
    (ff * 4 ≤ s →
      (adjustSampledMs s ff).1 ≤ s ∧ s < (adjustSampledMs s ff).1 + ff * 4) := by
  have hmpos : 0 < ff * 4 := by omega
  by_cases h : s % (ff * 4) = 0
  · rw [adjustSampledMs, if_neg (by simpa using h)]
    refine ⟨by simp [h], h, fun hne _ => absurd h hne, fun _ => ⟨le_refl s, by omega⟩⟩
  · rw [adjustSampledMs, if_pos (by simpa using h)]
    refine ⟨by simp [h], ?_, ?_, ?_⟩
    · by_cases hlt : s < ff * 4
      · simp [hlt, Nat.mod_self]
      · simp only [if_neg hlt]
        exact Nat.mul_mod_left (s / (ff * 4)) (ff * 4)
    · intro _ hlt
      simp [hlt]
    · intro hle
      rw [if_neg (by omega)]
      refine ⟨Nat.div_mul_le_self s (ff * 4), ?_⟩
      have hmod : s % (ff * 4) < ff * 4 := Nat.mod_lt s hmpos
      calc s = ff * 4 * (s / (ff * 4)) + s % (ff * 4) :=
              (Nat.div_add_mod s (ff * 4)).symm
        _ < ff * 4 * (s / (ff * 4)) + ff * 4 := by omega
        _ = s / (ff * 4) * (ff * 4) + ff * 4 := by ring

/-- Witness for the amended C3 at `s = 10`, `ff = 2`. -/
theorem quicksync_rounding_witness :
    0 < 2 ∧
    ((((adjustSampledMs 10 2).2 = true ↔ 10 % (2 * 4) ≠ 0) ∧
      (adjustSampledMs 10 2).1 % (2 * 4) = 0 ∧
      (10 % (2 * 4) ≠ 0 → 10 < 2 * 4 → (adjustSampledMs 10 2).1 = 2 * 4) ∧
      (2 * 4 ≤ 10 →
        (adjustSampledMs 10 2).1 ≤ 10 ∧ 10 < (adjustSampledMs 10 2).1 + 2 * 4))) :=
  ⟨by decide, quicksync_rounding 10 2 (by decide)⟩

lemma default_galileo_code_length :
    (cppRound (((4000000 : ℕ) : ℚ)
      / (Galileo_E1_CODE_CHIP_RATE_HZ / Galileo_E1_B_CODE_LENGTH_CHIPS))).toNat = 16000 := by
  norm_num [cppRound, Galileo_E1_CODE_CHIP_RATE_HZ, Galileo_E1_B_CODE_LENGTH_CHIPS]
  simp

lemma quickSyncConstruct_default_code_length :
    (quickSyncConstruct quickSyncDefaultConfig).code_length = 16000 :=
  default_galileo_code_length

lemma quickSyncConstruct_default_vector_length :
    (quickSyncConstruct quickSyncDefaultConfig).vector_length = 32000 := by
  show (adjustSampledMs 8 2).1
      * (cppRound ((((cppRound (((4000000 : ℕ) : ℚ)
          / (Galileo_E1_CODE_CHIP_RATE_HZ / Galileo_E1_B_CODE_LENGTH_CHIPS))).toNat : ℕ) : ℚ)
        / 4)).toNat = 32000
  rw [default_galileo_code_length]
  norm_num [cppRound, adjustSampledMs]
  simp

lemma quickSyncConstruct_default_folding :
    (quickSyncConstruct quickSyncDefaultConfig).folding_factor = 2 := rfl

/-- C1 counterexample: on the default QuickSync configuration
(`fs = 4 MHz`, `sampled_ms = 8`, `folding_factor p = 2`) with
`doppler_max = 0`, `doppler_step = 250` and `pfa = 1/2 ∈ (0,1)`, the source
calls the exponential quantile with rate `code_length_/p = 8000`, whereas
the claim prescribes rate `L/p = vector_length_/p = 16000` (and the
corresponding cell counts differ likewise), so `calculate_threshold` is not
the claimed function of the input vector length. -/
theorem quicksync_threshold_lambda_mismatch :
    (0 : ℚ) < 1/2 ∧ (1/2 : ℚ) < 1 ∧
    quickSyncCalculateThreshold (quickSyncConstruct quickSyncDefaultConfig) 0 250 (1/2)
      ≠ claimQuickSyncThreshold (quickSyncConstruct quickSyncDefaultConfig) 0 250 (1/2) := by
  refine ⟨by norm_num, by norm_num, ?_⟩
  intro h
  have hl : (quickSyncConstruct quickSyncDefaultConfig).code_length
        / (quickSyncConstruct quickSyncDefaultConfig).folding_factor
      = (quickSyncConstruct quickSyncDefaultConfig).vector_length
        / (quickSyncConstruct quickSyncDefaultConfig).folding_factor :=
    congrArg ThresholdCall.lambda h
  rw [quickSyncConstruct_default_code_length, quickSyncConstruct_default_vector_length,
    quickSyncConstruct_default_folding] at hl
  norm_num at hl

/-- C1 (amended): for every configuration, positive Doppler step and
`pfa ∈ (0,1)`, the Tong adapter calls the quantile with `λ = L` and
`N_cells = L · frequency_bins` where `L = vector_length_` is the input
vector length (`code_length_ · sampled_ms`), while the QuickSync adapter
calls it with `λ = code_length_/p` and `N_cells = (code_length_/p) ·
frequency_bins`, where `code_length_` is the sample count of one 4 ms
Galileo code period, derived from `fs` alone — not `L/p` as the original
claim states; `frequency_bins = ⌊2·doppler_max/doppler_step⌋ + 1`. -/
theorem calculate_threshold_parameters (tcfg : TongConfig) (qcfg : QuickSyncConfig)
    (doppler_max doppler_step : ℕ) (pfa : ℚ)
    (hstep : 0 < doppler_step) (_hpfa0 : 0 < pfa) (_hpfa1 : pfa < 1) :
    tongCalculateThreshold (tongConstruct tcfg) doppler_max doppler_step pfa
      = ⟨(tongConstruct tcfg).vector_length,
         (tongConstruct tcfg).vector_length * (2 * doppler_max / doppler_step + 1),
         pfa⟩ ∧
    (tongConstruct tcfg).vector_length
      = (tongConstruct tcfg).code_length * prop tcfg.coherent_integration_time_ms 1 ∧
    quickSyncCalculateThreshold (quickSyncConstruct qcfg) doppler_max doppler_step pfa
      = ⟨(quickSyncConstruct qcfg).code_length / (quickSyncConstruct qcfg).folding_factor,
         (quickSyncConstruct qcfg).code_length / (quickSyncConstruct qcfg).folding_factor
           * (2 * doppler_max / doppler_step + 1), pfa⟩ ∧
    (quickSyncConstruct qcfg).code_length
      = (cppRound (((prop qcfg.internal_fs_hz 4000000 : ℕ) : ℚ)
          / (Galileo_E1_CODE_CHIP_RATE_HZ / Galileo_E1_B_CODE_LENGTH_CHIPS))).toNat := by
  refine ⟨?_, rfl, ?_, rfl⟩
  · simp only [tongCalculateThreshold, frequencyBins_eq doppler_max doppler_step hstep]
  · simp only [quickSyncCalculateThreshold, frequencyBins_eq doppler_max doppler_step hstep]

/-- Witness for the amended C1 at the default configurations,
`doppler_max = 0`, `doppler_step = 250`, `pfa = 1/2`. -/
theorem calculate_threshold_parameters_witness :
    (0 < 250 ∧ (0 : ℚ) < 1/2 ∧ (1/2 : ℚ) < 1) ∧
    (tongCalculateThreshold (tongConstruct ⟨none, none, none, none, none, none⟩) 0 250 (1/2)
      = ⟨(tongConstruct ⟨none, none, none, none, none, none⟩).vector_length,
         (tongConstruct ⟨none, none, none, none, none, none⟩).vector_length * (2 * 0 / 250 + 1),
         1/2⟩ ∧
    (tongConstruct ⟨none, none, none, none, none, none⟩).vector_length
      = (tongConstruct ⟨none, none, none, none, none, none⟩).code_length
          * prop (⟨none, none, none, none, none, none⟩ : TongConfig).coherent_integration_time_ms 1 ∧
    quickSyncCalculateThreshold (quickSyncConstruct quickSyncDefaultConfig) 0 250 (1/2)
      = ⟨(quickSyncConstruct quickSyncDefaultConfig).code_length
           / (quickSyncConstruct quickSyncDefaultConfig).folding_factor,
         (quickSyncConstruct quickSyncDefaultConfig).code_length
           / (quickSyncConstruct quickSyncDefaultConfig).folding_factor * (2 * 0 / 250 + 1),
         1/2⟩ ∧
    (quickSyncConstruct quickSyncDefaultConfig).code_length
      = (cppRound (((prop quickSyncDefaultConfig.internal_fs_hz 4000000 : ℕ) : ℚ)
          / (Galileo_E1_CODE_CHIP_RATE_HZ / Galileo_E1_B_CODE_LENGTH_CHIPS))).toNat) :=
  ⟨⟨by decide, by norm_num, by norm_num⟩,
    calculate_threshold_parameters ⟨none, none, none, none, none, none⟩
      quickSyncDefaultConfig 0 250 (1/2) (by decide) (by norm_num) (by norm_num)⟩

/-- C10 evaluation at the failing configuration `fs = 4 MHz` (default),
`coherent_integration_time_ms = 16`, `folding_factor = 2`: the
`set_local_code` replication loop performs `sampled_ms_/(4·p) = 2` block
copies, writing `2 · code_length_ = 32000` elements into the `code_`
buffer allocated with `code_length_ = 16000` elements — the second block
is out of bounds, contradicting the claim that
`sampled_ms_/(4·folding_factor_) ≤ 1` after every construction. -/
theorem quicksync_local_code_out_of_bounds :
    quickSyncLocalCodeBlocks
        (quickSyncConstruct ⟨none, some 16, some 2, none, none, none, none⟩) = 2 ∧
    (quickSyncConstruct ⟨none, some 16, some 2, none, none, none, none⟩).code_length
      = 16000 ∧
    (quickSyncConstruct ⟨none, some 16, some 2, none, none, none, none⟩).code_length
      < quickSyncLocalCodeWriteCount
          (quickSyncConstruct ⟨none, some 16, some 2, none, none, none, none⟩) := by
  have hcl : (quickSyncConstruct ⟨none, some 16, some 2, none, none, none, none⟩).code_length
      = 16000 := default_galileo_code_length
  have hb : quickSyncLocalCodeBlocks
      (quickSyncConstruct ⟨none, some 16, some 2, none, none, none, none⟩) = 2 := by decide
  refine ⟨hb, hcl, ?_⟩
  rw [quickSyncLocalCodeWriteCount, hb, hcl]
  omega

/-! ### PVT claims -/

/-- C2: whenever `general_work` reaches the `log_rinex_obs` call (the one
gated on `galileo_ephemeris_iter != end() || gps_ephemeris_iter != end()`),
both dereferenced iterators are valid: the call only happens after
`b_rinex_header_writen` is set, which required both maps non-empty, and
the local copies never become empty again. -/
theorem rinex_obs_both_iterators_valid (p : PvtParams) (es : List EpochIn)
    (e : EpochIn)
    (h : (generalWork p (runPvt p es) e).2.obs_logged = true) :
    (generalWork p (runPvt p es) e).2.obs_galileo_deref = true ∧
    (generalWork p (runPvt p es) e).2.obs_gps_deref = true := by
  rw [generalWork_obsLogged] at h
  simp only [Bool.and_eq_true] at h
  rw [generalWork_obsGalileoDeref, generalWork_obsGpsDeref]
  have hw : (runPvt p es).rinex_header_writen = true
      ∨ rinexHeaderGate p (runPvt p es) e = true := by
    rcases h with ⟨⟨_, h2⟩, _⟩
    cases hb : (runPvt p es).rinex_header_writen
    · right
      rw [hb] at h2
      simpa using h2
    · left; rfl
  have hmaps : updatedGalileoEph (runPvt p es) e ≠ []
      ∧ updatedGpsEph (runPvt p es) e ≠ [] := by
    rcases hw with hw | hg
    · obtain ⟨h1, h2⟩ := headerInv_runPvt p es hw
      exact ⟨updatedGalileoEph_ne _ e h1, updatedGpsEph_ne _ e h2⟩
    · exact rinexHeaderGate_maps p _ e hg
  constructor
  · simpa [List.isEmpty_iff] using hmaps.1
  · simpa [List.isEmpty_iff] using hmaps.2

/-- Witness for C2: on the first epoch of a session fed with
`pvtEpochGood`, an observation record is logged and both iterators are
valid. -/
theorem rinex_obs_both_iterators_valid_witness :
    (generalWork pvtP0 (runPvt pvtP0 []) pvtEpochGood).2.obs_logged = true ∧
    ((generalWork pvtP0 (runPvt pvtP0 []) pvtEpochGood).2.obs_galileo_deref = true ∧
     (generalWork pvtP0 (runPvt pvtP0 []) pvtEpochGood).2.obs_gps_deref = true) :=
  ⟨by decide, rinex_obs_both_iterators_valid pvtP0 [] pvtEpochGood (by decide)⟩

/-- C4: the RINEX header pair is emitted at epoch `n` exactly when the
header gate (valid PVT fix, GPS and Galileo ephemeris present, Galileo
almanac available) holds at `n` and held at no earlier epoch; hence it is
emitted at most once per session, at the first such epoch, and never again
once `b_rinex_header_writen` is set. -/
theorem rinex_header_written_once (p : PvtParams) (es : List EpochIn) (n : ℕ) :
    headerEmittedAt p es n = true
      ↔ (headerGateAt p es n = true ∧ ∀ m, m < n → headerGateAt p es m = false) := by
  cases hn : es[n]? with
  | none =>
      have h1 : headerEmittedAt p es n = false := by simp [headerEmittedAt, hn]
      have h2 : headerGateAt p es n = false := by simp [headerGateAt, hn]
      rw [h1, h2]
      simp
  | some e =>
      have h1 : headerEmittedAt p es n
          = (rinexHeaderGate p (runPvt p (es.take n)) e
              && !(runPvt p (es.take n)).rinex_header_writen) := by
        simp [headerEmittedAt, hn, generalWork_headerEmitted]
      have h2 : headerGateAt p es n = rinexHeaderGate p (runPvt p (es.take n)) e := by
        simp [headerGateAt, hn]
      rw [h1, h2]
      constructor
      · intro hy
        simp only [Bool.and_eq_true, Bool.not_eq_true'] at hy
        refine ⟨hy.1, ?_⟩
        intro m hm
        cases hb : headerGateAt p es m with
        | false => rfl
        | true =>
            have hw : (runPvt p (es.take n)).rinex_header_writen = true :=
              (headerWriten_take_iff p es n).mpr ⟨m, hm, hb⟩
            rw [hw] at hy
            cases hy.2
      · rintro ⟨hgate, hall⟩
        have hw : (runPvt p (es.take n)).rinex_header_writen = false := by
          cases hb : (runPvt p (es.take n)).rinex_header_writen with
          | false => rfl
          | true =>
              obtain ⟨m, hm, hg⟩ := (headerWriten_take_iff p es n).mp hb
              rw [hall m hm] at hg
              cases hg
        rw [hgate, hw]
        rfl

/-- Witness for C4: with two consecutive gate-satisfying epochs the header
is emitted at epoch 0 and not at epoch 1. -/
theorem rinex_header_written_once_witness :
    headerEmittedAt pvtP0 [pvtEpochGood, pvtEpochGood] 0 = true ∧
    headerEmittedAt pvtP0 [pvtEpochGood, pvtEpochGood] 1 = false :=
  ⟨(rinex_header_written_once pvtP0 [pvtEpochGood, pvtEpochGood] 0).mpr
      ⟨by decide, fun m hm => absurd hm (Nat.not_lt_zero m)⟩,
    by decide⟩

/-- C5: between any two navigation-record appends the sample counter
advances by at least 6000 ticks (the counters at the two epochs are `m+1`
and `n+1`), so navigation records are appended no faster than once per
6000 PVT input samples, whatever `output_rate_ms` is. -/
theorem nav_records_spacing (p : PvtParams) (es : List EpochIn) (m n : ℕ)
    (hm : navLoggedAt p es m = true) (hn : navLoggedAt p es n = true)
    (hmn : m < n) : 6000 ≤ n - m := by
  obtain ⟨hnlen, hguard⟩ := navLoggedAt_guard p es n hn
  have h1 : (runPvt p (es.take (m + 1))).last_sample_nav_output = m + 1 :=
    navLoggedAt_lastNav p es m hm
  have hdecomp : es.take n = es.take (m + 1) ++ (es.drop (m + 1)).take (n - (m + 1)) := by
    rw [← List.take_add]
    congr 1
    omega
  have h2 : (runPvt p (es.take (m + 1))).last_sample_nav_output
      ≤ (runPvt p (es.take n)).last_sample_nav_output := by
    rw [hdecomp, runPvt_append]
    exact lastNav_foldl_mono p _ _ (navInv_runPvt p _)
  omega

lemma generalWork_idle (s : PvtState) :
    (generalWork pvtP0 s pvtIdle).1
      = ⟨s.sample_counter + 1, s.last_sample_nav_output, s.rx_time,
         s.tow_at_curr_symbol, s.rinex_header_writen,
         s.galileo_ephemeris_map, s.gps_ephemeris_map⟩ := by
  simp [generalWork, pvtIdle, pvtP0, updatedGalileoEph, updatedGpsEph,
    validFix, rinexHeaderGate, anyValidPseudorange]

lemma runPvt_idle_foldl (k : ℕ) :
    ∀ s : PvtState,
      (List.replicate k pvtIdle).foldl (fun s e => (generalWork pvtP0 s e).1) s
        = ⟨s.sample_counter + k, s.last_sample_nav_output, s.rx_time,
           s.tow_at_curr_symbol, s.rinex_header_writen,
           s.galileo_ephemeris_map, s.gps_ephemeris_map⟩ := by
  induction k with
  | zero => intro s; simp
  | succ k ih =>
      intro s
      rw [List.replicate_succ, List.foldl_cons, generalWork_idle, ih]
      simp [PvtState.mk.injEq]
      omega

lemma pvtTraceA_length : pvtTraceA.length = 5999 := by rw [pvtTraceA, List.length_replicate]

lemma runPvt_traceA : runPvt pvtP0 pvtTraceA = ⟨5999, 0, 0, 0, false, [], []⟩ := by
  rw [runPvt, pvtTraceA, runPvt_idle_foldl]
  rfl

lemma pvtTrace_take_5999 : pvtTrace.take 5999 = pvtTraceA := by
  rw [pvtTrace, List.append_assoc,
    show (5999 : ℕ) = pvtTraceA.length from pvtTraceA_length.symm, List.take_left]

lemma pvtTrace_getElem_5999 : pvtTrace[5999]? = some pvtEpochGood := by
  rw [pvtTrace, List.append_assoc,
    List.getElem?_append_right (by rw [pvtTraceA_length]), pvtTraceA_length]
  norm_num

set_option maxRecDepth 4096 in
lemma runPvt_P1 :
    runPvt pvtP0 (pvtTraceA ++ [pvtEpochGood]) = ⟨6000, 6000, 7, 5, true, [11], [22]⟩ := by
  rw [runPvt_append, runPvt_traceA]
  decide

lemma pvtTrace_take_11999 :
    pvtTrace.take 11999 = (pvtTraceA ++ [pvtEpochGood]) ++ pvtTraceA := by
  have h6000 : (6000 : ℕ) = (pvtTraceA ++ [pvtEpochGood]).length := by
    simp [pvtTraceA_length]
  rw [pvtTrace, show (11999 : ℕ) = 6000 + 5999 by norm_num, List.take_add, h6000,
    List.take_left, List.drop_left,
    show (5999 : ℕ) = pvtTraceA.length from pvtTraceA_length.symm, List.take_left]

lemma pvtTrace_getElem_11999 : pvtTrace[11999]? = some pvtEpochGood := by
  rw [pvtTrace,
    List.getElem?_append_right (by simp [pvtTraceA_length]),
    List.getElem?_append_right (by simp [pvtTraceA_length]),
    List.length_append, pvtTraceA_length]
  norm_num

lemma navLoggedAt_5999 : navLoggedAt pvtP0 pvtTrace 5999 = true := by
  have h : navLoggedAt pvtP0 pvtTrace 5999
      = (generalWork pvtP0 (runPvt pvtP0 (pvtTrace.take 5999)) pvtEpochGood).2.nav_logged := by
    unfold navLoggedAt
    rw [pvtTrace_getElem_5999]
  rw [h, pvtTrace_take_5999, runPvt_traceA]
  decide

lemma navLoggedAt_11999 : navLoggedAt pvtP0 pvtTrace 11999 = true := by
  have h : navLoggedAt pvtP0 pvtTrace 11999
      = (generalWork pvtP0 (runPvt pvtP0 (pvtTrace.take 11999)) pvtEpochGood).2.nav_logged := by
    unfold navLoggedAt
    rw [pvtTrace_getElem_11999]
  have hrun : runPvt pvtP0 (pvtTrace.take 11999) = ⟨11999, 6000, 7, 5, true, [11], [22]⟩ := by
    rw [pvtTrace_take_11999, runPvt_append, runPvt_P1, pvtTraceA, runPvt_idle_foldl]
  rw [h, hrun]
  decide

/-- Witness for C5: on a 12000-epoch trace, navigation records are logged
at epochs 5999 and 11999, and the spacing theorem applies. -/
theorem nav_records_spacing_witness :
    navLoggedAt pvtP0 pvtTrace 5999 = true ∧
    navLoggedAt pvtP0 pvtTrace 11999 = true ∧
    5999 < 11999 ∧ 6000 ≤ 11999 - 5999 :=
  ⟨navLoggedAt_5999, navLoggedAt_11999, by decide,
    nav_records_spacing pvtP0 pvtTrace 5999 11999
      navLoggedAt_5999 navLoggedAt_11999 (by decide)⟩

lemma foldl_tow_hybrid_seed (h : ℚ) :
    ∀ l : List Chan,
      (∀ c ∈ l, c.flag_valid_pseudorange = true →
        c.tow_hybrid_at_current_symbol = h) →
      l.foldl (fun r c =>
        if c.flag_valid_pseudorange then c.tow_hybrid_at_current_symbol else r) h = h := by
  intro l
  induction l with
  | nil => intro _; rfl
  | cons c t ih =>
      intro hall
      simp only [List.foldl_cons]
      cases hc : c.flag_valid_pseudorange with
      | false => simpa using ih (fun c' hc' => hall c' (List.mem_cons_of_mem c hc'))
      | true =>
          rw [if_pos rfl, hall c (List.mem_cons_self c t) hc]
          exact ih (fun c' hc' => hall c' (List.mem_cons_of_mem c hc'))

lemma foldl_tow_hybrid (h : ℚ) :
    ∀ (l : List Chan) (r0 : ℚ),
      (∀ c ∈ l, c.flag_valid_pseudorange = true →
        c.tow_hybrid_at_current_symbol = h) →
      (∃ c ∈ l, c.flag_valid_pseudorange = true) →
      l.foldl (fun r c =>
        if c.flag_valid_pseudorange then c.tow_hybrid_at_current_symbol else r) r0 = h := by
  intro l
  induction l with
  | nil => rintro r0 _ ⟨c, hc, _⟩; cases hc
  | cons c t ih =>
      rintro r0 hall hex
      simp only [List.foldl_cons]
      cases hc : c.flag_valid_pseudorange with
      | true =>
          rw [if_pos rfl, hall c (List.mem_cons_self c t) hc]
          exact foldl_tow_hybrid_seed h t
            (fun c' hc' => hall c' (List.mem_cons_of_mem c hc'))
      | false =>
          rw [if_neg (by simp [hc])]
          refine ih r0 (fun c' hc' => hall c' (List.mem_cons_of_mem c hc')) ?_
          rcases hex with ⟨c', hc', hf⟩
          rcases List.mem_cons.mp hc' with rfl | hmem
          · rw [hc] at hf; cases hf
          · exact ⟨c', hmem, hf⟩

/-- C6: under the epoch-alignment precondition (every channel with a valid
pseudorange carries the same `d_TOW_hybrid_at_current_symbol = h`, and at
least one channel is valid), `d_rx_time` after the channel loop equals
`h`, the receiver time handed to `get_PVT` equals `h`, and the dump
triplets carry `h`. -/
theorem rx_time_common_epoch (p : PvtParams) (s : PvtState) (e : EpochIn) (h : ℚ)
    (hall : ∀ c ∈ e.chans, c.flag_valid_pseudorange = true →
      c.tow_hybrid_at_current_symbol = h)
    (hex : ∃ c ∈ e.chans, c.flag_valid_pseudorange = true) :
    (generalWork p s e).1.rx_time = h ∧
    (∀ t, (generalWork p s e).2.pvt_rx = some t → t = h) ∧
    (p.dump = true → (generalWork p s e).2.dump_words
        = e.chans.flatMap (fun c => [c.pseudorange_m, 0, h])) := by
  have hrx : (generalWork p s e).1.rx_time = h := by
    show e.chans.foldl (fun r c =>
      if c.flag_valid_pseudorange then c.tow_hybrid_at_current_symbol else r) s.rx_time = h
    exact foldl_tow_hybrid h e.chans s.rx_time hall hex
  have hany : anyValidPseudorange e = true := by
    rcases hex with ⟨c, hc, hf⟩
    simp only [anyValidPseudorange, List.any_eq_true]
    exact ⟨c, hc, hf⟩
  refine ⟨hrx, ?_, ?_⟩
  · intro t ht
    have heq : (generalWork p s e).2.pvt_rx
        = (if anyValidPseudorange e
              && ((s.sample_counter + 1) % p.output_rate_ms == 0)
           then some ((generalWork p s e).1.rx_time) else none) := rfl
    rw [heq] at ht
    split at ht
    · rw [Option.some_inj] at ht
      rw [← ht]
      exact hrx
    · cases ht
  · intro hd
    have heq : (generalWork p s e).2.dump_words
        = (if anyValidPseudorange e && p.dump
           then e.chans.flatMap
             (fun c => [c.pseudorange_m, 0, (generalWork p s e).1.rx_time])
           else []) := rfl
    rw [heq, hany, hd]
    simp only [Bool.and_self, if_true, hrx]

/-- Witness for C6 at a concrete single-channel epoch with
`d_TOW_hybrid = 7`. -/
theorem rx_time_common_epoch_witness :
    (generalWork pvtP1 pvtInit pvtEpochGood).1.rx_time = 7 ∧
    (∀ t, (generalWork pvtP1 pvtInit pvtEpochGood).2.pvt_rx = some t → t = 7) ∧
    (pvtP1.dump = true → (generalWork pvtP1 pvtInit pvtEpochGood).2.dump_words
        = pvtEpochGood.chans.flatMap (fun c => [c.pseudorange_m, 0, 7])) :=
  rx_time_common_epoch pvtP1 pvtInit pvtEpochGood 7 (by decide) (by decide)

lemma length_flatMap_triple {α : Type} (l : List α) (f : α → List ℚ)
    (hf : ∀ a, (f a).length = 3) : (l.flatMap f).length = 3 * l.length := by
  induction l with
  | nil => simp
  | cons a t ih =>
      rw [List.flatMap_cons, List.length_append, hf a, ih, List.length_cons]
      omega

/-- C9: with dumping enabled, an epoch carrying at least one valid
pseudorange appends exactly one `(Pseudorange_m, 0.0, d_rx_time)` triplet
per channel, in channel order — `3 · nchannels` doubles in total. -/
theorem dump_words_triplets (p : PvtParams) (s : PvtState) (e : EpochIn)
    (hd : p.dump = true) (hv : anyValidPseudorange e = true) :
    (generalWork p s e).2.dump_words
      = e.chans.flatMap
          (fun c => [c.pseudorange_m, 0, (generalWork p s e).1.rx_time]) ∧
    (generalWork p s e).2.dump_words.length = 3 * e.chans.length := by
  have heq : (generalWork p s e).2.dump_words
      = (if anyValidPseudorange e && p.dump
         then e.chans.flatMap
           (fun c => [c.pseudorange_m, 0, (generalWork p s e).1.rx_time])
         else []) := rfl
  have h1 : (generalWork p s e).2.dump_words
      = e.chans.flatMap
          (fun c => [c.pseudorange_m, 0, (generalWork p s e).1.rx_time]) := by
    rw [heq, hv, hd]
    rfl
  refine ⟨h1, ?_⟩
  rw [h1]
  exact length_flatMap_triple e.chans _ (fun a => rfl)

/-- Witness for C9 at a concrete single-channel epoch. -/
theorem dump_words_triplets_witness :
    ((generalWork pvtP1 pvtInit pvtEpochGood).2.dump_words
      = pvtEpochGood.chans.flatMap
          (fun c => [c.pseudorange_m, 0,
            (generalWork pvtP1 pvtInit pvtEpochGood).1.rx_time]) ∧
    (generalWork pvtP1 pvtInit pvtEpochGood).2.dump_words.length
      = 3 * pvtEpochGood.chans.length) :=
  dump_words_triplets pvtP1 pvtInit pvtEpochGood rfl (by decide)

end GnssSdr
